import Mathlib

/-!
Shallow embedding of the G-code generation notebook of the
ams-glue-dispenser-GUI repository (src/GCode_writer.ipynb).

The notebook's second cell is the orchestrator the specification's claims
refer to: it fixes `stepX = 20`, `stepY = 26.2`, computes
`glueDots_X = 50 - ((12 - filename + 1) * 4)` for the ladder length
`filename`, builds the serpentine dot grid, and writes the program
(initialization block, then per dot a move or first-dot comment followed
by a glue-deposition block, then the terminator `SH`).

Real-valued quantities of the Python code are embedded as rationals;
Python's integer arithmetic is embedded as `Int`/`Nat` arithmetic.
-/

set_option maxRecDepth 100000

/-- Decimal digit characters of `n`, most significant first, with explicit
fuel so that the definition is structurally recursive (Python's `str` on a
nonnegative integer). Called with `fuel = n`, which is always enough. -/
def natCharsAux : Nat → Nat → List Char
  | 0, n => [Nat.digitChar (n % 10)]
  | fuel + 1, n =>
      if n < 10 then [Nat.digitChar n]
      else natCharsAux fuel (n / 10) ++ [Nat.digitChar (n % 10)]

/-- Decimal digit characters of a natural number, most significant first. -/
def natChars (n : Nat) : List Char := natCharsAux n n

/-- Decimal string of a natural number (Python's `str`). -/
def natStr (n : Nat) : String := ⟨natChars n⟩

/-- Python's `%03d` / `{:03d}` formatting: zero-pad the decimal rendering
to at least three characters (wider numbers print in full). -/
def pad3 (n : Nat) : String :=
  if n < 10 then "00" ++ natStr n
  else if n < 100 then "0" ++ natStr n
  else natStr n

/-- Python's `{:.3f}` fixed-point formatting of a (rational) real: round to
the nearest thousandth and print with exactly three digits after the
decimal point. -/
def fmt3 (q : ℚ) : String :=
  let m : ℤ := round (q * 1000)
  (if m < 0 then "-" else "") ++ natStr (m.natAbs / 1000) ++ "." ++ pad3 (m.natAbs % 1000)

/-- The notebook's `initialize(zero_glue, feed_rate, fast)`: the one-time
program preamble, ending with the positioning move to `zero_glue` that
always prints both the X and the Y field. -/
def emitInit (zero_glue : ℚ × ℚ) (feed_rate : ℤ) (fast : Bool) : String :=
  "; Program initialization\n" ++
  "$100=159.949; X axis steps/mm\n" ++
  "$101=160.241; Y axis steps/mm\n" ++
  "$130=990; X axis maximum travel\n" ++
  "$X; GRBL unlock\n" ++
  "M3\n" ++
  "F" ++ toString feed_rate ++ "\n" ++
  "$H; GRBL homing\n" ++
  "G91\n" ++
  (if fast then "G00" else "G01") ++
  "X" ++ fmt3 zero_glue.1 ++ "Y" ++ fmt3 zero_glue.2 ++ "\n" ++
  "; End of program initialization\n"

/-- The notebook's `moveTo(xy, fast, comment)`: one relative move line;
an axis field is printed only when its delta component is nonzero. -/
def moveTo (xy : ℚ × ℚ) (fast : Bool) (comment : String) : String :=
  let x := xy.1
  let y := xy.2
  let s := if fast then "G00" else "G01"
  let s := if ¬ x = 0 then s ++ "X" ++ fmt3 x else s
  let s := if ¬ y = 0 then s ++ "Y" ++ fmt3 y else s
  s ++ comment ++ "\n"

/-- The notebook's `glueDeposition(pause_long, pause_short, pause_glue)`:
the fixed glue-deposition block, one dot. -/
def glueDeposition (pause_long pause_short pause_glue : Nat) : String :=
  "; ------- Glue deposition -------\n" ++
  "M4\n" ++
  "G4 P" ++ pad3 pause_long ++ "\n" ++
  "M8\n" ++
  "G4 P" ++ pad3 pause_short ++ "\n" ++
  "M9\n" ++
  "G4 P" ++ pad3 pause_glue ++ "\n" ++
  "M3\n" ++
  "G4 P" ++ pad3 pause_long ++ "\n" ++
  "; ------- End of glue deposition -------\n"

/-- Dot spacing within a row (`stepX = 20` in the notebook). -/
def stepX : ℚ := 20

/-- Row spacing (`stepY = 26.2` in the notebook). -/
def stepY : ℚ := 131 / 5

/-- The notebook's `glueDots_X = 50 - ((12 - filename + 1) * 4)` where
`filename` is the ladder length. -/
def rowWidth (L : ℤ) : ℤ := 50 - ((12 - L + 1) * 4)

/-- One row of the dot grid: the inner `for j in range(glueDots_X)` loop of
the notebook, for row index `i`. Even rows ascend in x, odd rows descend. -/
def rowOf (L : ℤ) (i : Nat) : List (ℚ × ℚ) :=
  (List.range (rowWidth L).toNat).map fun (j : Nat) =>
    if i % 2 = 0 then ((j : ℚ) * stepX, (i : ℚ) * stepY)
    else (((rowWidth L : ℚ) - (j : ℚ) - 1) * stepX, (i : ℚ) * stepY)

/-- The notebook's `glueDots` list: the outer `for i in range(4)` loop,
rows appended in order. -/
def buildGrid (L : ℤ) : List (ℚ × ℚ) := (List.range 4).flatMap (rowOf L)

/-- The notebook's `fastmovement = True`. -/
def fastmovement : Bool := true

/-- Column encoded in the orchestrator's per-dot comment:
`i%51 if (i//51)%2 == 0 else (50-i%51)` (width 51 is hard-coded). -/
def commentCol (i : Nat) : Nat := if (i / 51) % 2 = 0 then i % 51 else 50 - i % 51

/-- Row encoded in the orchestrator's per-dot comment: `(i//51)%4`. -/
def commentRow (i : Nat) : Nat := (i / 51) % 4

/-- Re-derivation of a coordinate from a decoded logical (column, row)
pair via the grid formula: the dot at logical column `c` of row `r` sits at
`(c * stepX, r * stepY)`. -/
def rederive (c r : Nat) : ℚ × ℚ := ((c : ℚ) * stepX, (r : ℚ) * stepY)

/-- The comment attached to a moved-to dot:
`f' ; Glue dot in position ({col}, {row})'`. -/
def posComment (i : Nat) : String :=
  " ; Glue dot in position (" ++ natStr (commentCol i) ++ ", " ++ natStr (commentRow i) ++ ")"

/-- The comment-only line for the first dot:
`f'; First glue dot in position ({i%51}, {(i//51)%4})\n'`. -/
def firstComment (i : Nat) : String :=
  "; First glue dot in position (" ++ natStr (i % 51) ++ ", " ++ natStr ((i / 51) % 4) ++ ")" ++ "\n"

/-- The per-dot positioning output of the orchestrator's loop body: a move
line when the delta from the previous position is nonzero, otherwise the
first-dot comment line. -/
def dotEmission (old : ℚ × ℚ) (i : Nat) (xy : ℚ × ℚ) : String :=
  let delta := (xy.1 - old.1, xy.2 - old.2)
  if ¬ (delta.1 = 0 ∧ delta.2 = 0) then moveTo delta fastmovement (posComment i)
  else firstComment i

/-- The orchestrator's loop over the grid, carrying `oldXY` and the index. -/
def emitDots (old : ℚ × ℚ) (i : Nat) : List (ℚ × ℚ) → String
  | [] => ""
  | xy :: rest => dotEmission old i xy ++ glueDeposition 2 1 1 ++ emitDots xy (i + 1) rest

/-- The whole generation run of the notebook's second cell. The cell reads
`oldXY = glueCoord[0]` before opening the output file, so an empty grid
aborts with an index error and no text at all is produced: embedded as
`none`. Otherwise the full program text is produced. -/
def generateProgram (L : ℤ) : Option String :=
  match (buildGrid L).head? with
  | none => none
  | some p0 => some (emitInit (0, 237) 1000 true ++ emitDots p0 0 (buildGrid L) ++ "SH")

/-- The coordinate the grid-building loops place at flat index `k`:
row `k / rowWidth`, inner loop index `k % rowWidth`. -/
def gridPoint (L : ℤ) (k : Nat) : ℚ × ℚ :=
  if (k / (rowWidth L).toNat) % 2 = 0 then
    ((((k % (rowWidth L).toNat) : Nat) : ℚ) * stepX, (((k / (rowWidth L).toNat) : Nat) : ℚ) * stepY)
  else
    (((rowWidth L : ℚ) - (((k % (rowWidth L).toNat) : Nat) : ℚ) - 1) * stepX,
     (((k / (rowWidth L).toNat) : Nat) : ℚ) * stepY)


lemma rowWidth_toNat_ge_two (L : ℤ) (hL : 1 ≤ L) : 2 ≤ (rowWidth L).toNat := by
  unfold rowWidth; omega

lemma rowOf_length (L : ℤ) (i : Nat) : (rowOf L i).length = (rowWidth L).toNat := by
  unfold rowOf
  rw [List.length_map, List.length_range]

lemma buildGrid_eq_rows (L : ℤ) :
    buildGrid L = rowOf L 0 ++ (rowOf L 1 ++ (rowOf L 2 ++ (rowOf L 3 ++ []))) := rfl

lemma buildGrid_length (L : ℤ) : (buildGrid L).length = 4 * (rowWidth L).toNat := by
  rw [buildGrid_eq_rows]
  simp [rowOf_length]
  omega

lemma rowOf_entry (L : ℤ) (i j : Nat) (hj : j < (rowWidth L).toNat) :
    (rowOf L i)[j]? =
      some (if i % 2 = 0 then ((j : ℚ) * stepX, (i : ℚ) * stepY)
            else (((rowWidth L : ℚ) - (j : ℚ) - 1) * stepX, (i : ℚ) * stepY)) := by
  unfold rowOf
  rw [List.getElem?_map, List.getElem?_range hj]
  rfl

lemma buildGrid_entry (L : ℤ) (i j : Nat) (hi : i < 4) (hj : j < (rowWidth L).toNat) :
    (buildGrid L)[i * (rowWidth L).toNat + j]? =
      some (if i % 2 = 0 then ((j : ℚ) * stepX, (i : ℚ) * stepY)
            else (((rowWidth L : ℚ) - (j : ℚ) - 1) * stepX, (i : ℚ) * stepY)) := by
  rw [buildGrid_eq_rows]
  interval_cases i
  · simp only [Nat.zero_mul, Nat.zero_add]
    rw [List.getElem?_append_left (by simpa [rowOf_length] using hj)]
    exact rowOf_entry L 0 j hj
  · rw [List.getElem?_append_right (by simp only [rowOf_length]; omega)]
    simp only [rowOf_length]
    have he : 1 * (rowWidth L).toNat + j - (rowWidth L).toNat = j := by omega
    rw [he]
    rw [List.getElem?_append_left (by simpa [rowOf_length] using hj)]
    exact rowOf_entry L 1 j hj
  · rw [List.getElem?_append_right (by simp only [rowOf_length]; omega)]
    simp only [rowOf_length]
    rw [List.getElem?_append_right (by simp only [rowOf_length]; omega)]
    simp only [rowOf_length]
    have he : 2 * (rowWidth L).toNat + j - (rowWidth L).toNat - (rowWidth L).toNat = j := by
      omega
    rw [he]
    rw [List.getElem?_append_left (by simpa [rowOf_length] using hj)]
    exact rowOf_entry L 2 j hj
  · rw [List.getElem?_append_right (by simp only [rowOf_length]; omega)]
    simp only [rowOf_length]
    rw [List.getElem?_append_right (by simp only [rowOf_length]; omega)]
    simp only [rowOf_length]
    rw [List.getElem?_append_right (by simp only [rowOf_length]; omega)]
    simp only [rowOf_length]
    have he : 3 * (rowWidth L).toNat + j - (rowWidth L).toNat - (rowWidth L).toNat
        - (rowWidth L).toNat = j := by omega
    rw [he]
    rw [List.getElem?_append_left (by simpa [rowOf_length] using hj)]
    exact rowOf_entry L 3 j hj

lemma grid_get (L : ℤ) (k : Nat) (hk : k < (buildGrid L).length) :
    (buildGrid L)[k]? = some (gridPoint L k) := by
  have hlen := buildGrid_length L
  have hwpos : 0 < (rowWidth L).toNat := by omega
  have hi : k / (rowWidth L).toNat < 4 :=
    Nat.div_lt_of_lt_mul (by omega)
  have hj : k % (rowWidth L).toNat < (rowWidth L).toNat := Nat.mod_lt _ hwpos
  have h := buildGrid_entry L (k / (rowWidth L).toNat) (k % (rowWidth L).toNat) hi hj
  rw [Nat.mul_comm (k / (rowWidth L).toNat) (rowWidth L).toNat, Nat.div_add_mod] at h
  simpa only [gridPoint] using h

/-- C1: for every valid ladder length L the Grid Builder produces exactly
4 × rowWidth(L) coordinates, and rowWidth (the notebook's `glueDots_X`
formula) is strictly increasing: any larger valid ladder length has a
strictly larger row width. The size conjunct depends on L alone, so it is
derivable at every valid length, including the maximum L = 12. -/
theorem grid_size_and_rowWidth_strict_mono (L L' : ℤ)
    (h1 : 1 ≤ L) (h2 : L ≤ 12) (h1' : 1 ≤ L') (h2' : L' ≤ 12) :
    (buildGrid L).length = 4 * (rowWidth L).toNat ∧
    (L < L' → rowWidth L < rowWidth L') := by
  refine ⟨buildGrid_length L, fun hLL => ?_⟩
  unfold rowWidth
  omega

theorem grid_size_and_rowWidth_strict_mono_witness :
    ((buildGrid 12).length = 4 * (rowWidth 12).toNat ∧
      ((12 : ℤ) < 12 → rowWidth 12 < rowWidth 12)) ∧
    ((buildGrid 8).length = 4 * (rowWidth 8).toNat ∧
      ((8 : ℤ) < 12 → rowWidth 8 < rowWidth 12)) :=
  ⟨grid_size_and_rowWidth_strict_mono 12 12 (by decide) (by decide) (by decide) (by decide),
   grid_size_and_rowWidth_strict_mono 8 12 (by decide) (by decide) (by decide) (by decide)⟩

lemma stepX_pos : (0 : ℚ) < stepX := by norm_num [stepX]

lemma stepY_ne_zero : stepY ≠ 0 := by norm_num [stepY]

/-- C2: serpentine invariant: within every row, x is non-decreasing on even
rows and non-increasing on odd rows, and every dot of row i has
y = i * stepY. -/
theorem serpentine_rows (L : ℤ) (hL1 : 1 ≤ L) (hL2 : L ≤ 12)
    (i j : Nat) (hi : i < 4) (hj : j + 1 < (rowWidth L).toNat)
    (p q : ℚ × ℚ)
    (hp : (buildGrid L)[i * (rowWidth L).toNat + j]? = some p)
    (hq : (buildGrid L)[i * (rowWidth L).toNat + (j + 1)]? = some q) :
    p.2 = (i : ℚ) * stepY ∧ q.2 = (i : ℚ) * stepY ∧
    (i % 2 = 0 → p.1 ≤ q.1) ∧ (i % 2 = 1 → q.1 ≤ p.1) := by
  rw [buildGrid_entry L i j hi (by omega)] at hp
  rw [buildGrid_entry L i (j + 1) hi hj] at hq
  injection hp with hp
  injection hq with hq
  subst hp
  subst hq
  rcases Nat.mod_two_eq_zero_or_one i with h | h
  · rw [if_pos h]
    refine ⟨rfl, ?_, ?_, ?_⟩
    · rw [if_pos h]
    · intro _
      rw [if_pos h]
      show ((j : ℚ)) * stepX ≤ (((j + 1 : Nat)) : ℚ) * stepX
      unfold stepX
      push_cast
      linarith
    · intro hcontra
      omega
  · rw [if_neg (by omega)]
    refine ⟨rfl, ?_, ?_, ?_⟩
    · rw [if_neg (by omega)]
    · intro hcontra
      omega
    · intro _
      rw [if_neg (by omega)]
      show ((rowWidth L : ℚ) - (((j + 1 : Nat)) : ℚ) - 1) * stepX ≤
        ((rowWidth L : ℚ) - (j : ℚ) - 1) * stepX
      unfold stepX
      push_cast
      linarith

unseal Rat.mul Rat.add Rat.sub Rat.inv in
theorem serpentine_rows_witness :
    (((20 : ℚ), (131 : ℚ) / 5) : ℚ × ℚ).2 = ((1 : Nat) : ℚ) * stepY ∧
    (((0 : ℚ), (131 : ℚ) / 5) : ℚ × ℚ).2 = ((1 : Nat) : ℚ) * stepY ∧
    ((1 : Nat) % 2 = 0 →
      (((20 : ℚ), (131 : ℚ) / 5) : ℚ × ℚ).1 ≤ (((0 : ℚ), (131 : ℚ) / 5) : ℚ × ℚ).1) ∧
    ((1 : Nat) % 2 = 1 →
      (((0 : ℚ), (131 : ℚ) / 5) : ℚ × ℚ).1 ≤ (((20 : ℚ), (131 : ℚ) / 5) : ℚ × ℚ).1) :=
  serpentine_rows 1 (by decide) (by decide) 1 0 (by decide) (by decide)
    ((20 : ℚ), (131 : ℚ) / 5) ((0 : ℚ), (131 : ℚ) / 5) (by decide) (by decide)

lemma consecutive_delta (L : ℤ) (k : Nat) (hk : k + 1 < (buildGrid L).length) :
    if (k + 1) % (rowWidth L).toNat = 0
    then (gridPoint L (k + 1)).1 - (gridPoint L k).1 = 0 ∧
         (gridPoint L (k + 1)).2 - (gridPoint L k).2 = stepY
    else |(gridPoint L (k + 1)).1 - (gridPoint L k).1| = stepX ∧
         (gridPoint L (k + 1)).2 - (gridPoint L k).2 = 0 := by
  have hlen := buildGrid_length L
  have hwpos : 0 < (rowWidth L).toNat := by omega
  have hWcast : (((rowWidth L).toNat : ℚ)) = ((rowWidth L : ℚ)) := by
    have h : (((rowWidth L).toNat : ℤ)) = rowWidth L := by omega
    exact_mod_cast h
  have hid : (rowWidth L).toNat * (k / (rowWidth L).toNat) + k % (rowWidth L).toNat = k :=
    Nat.div_add_mod k (rowWidth L).toNat
  have hjw : k % (rowWidth L).toNat < (rowWidth L).toNat := Nat.mod_lt _ hwpos
  by_cases hcase : k % (rowWidth L).toNat + 1 < (rowWidth L).toNat
  · have hdiv1 : (k + 1) / (rowWidth L).toNat = k / (rowWidth L).toNat := by
      conv_lhs => rw [show k + 1 = (rowWidth L).toNat * (k / (rowWidth L).toNat) +
        (k % (rowWidth L).toNat + 1) from by omega]
      rw [Nat.mul_add_div hwpos, Nat.div_eq_of_lt hcase, Nat.add_zero]
    have hmod1 : (k + 1) % (rowWidth L).toNat = k % (rowWidth L).toNat + 1 := by
      conv_lhs => rw [show k + 1 = (rowWidth L).toNat * (k / (rowWidth L).toNat) +
        (k % (rowWidth L).toNat + 1) from by omega]
      rw [Nat.mul_add_mod, Nat.mod_eq_of_lt hcase]
    rw [if_neg (by omega)]
    rcases Nat.mod_two_eq_zero_or_one (k / (rowWidth L).toNat) with hpar | hpar
    · have dx : (gridPoint L (k + 1)).1 - (gridPoint L k).1 = stepX := by
        simp only [gridPoint, hdiv1, hmod1, if_pos hpar]
        push_cast
        ring
      have dy : (gridPoint L (k + 1)).2 - (gridPoint L k).2 = 0 := by
        simp only [gridPoint, hdiv1, hmod1, if_pos hpar]
        ring
      rw [dx, dy]
      exact ⟨abs_of_pos stepX_pos, rfl⟩
    · have hparn : ¬ (k / (rowWidth L).toNat) % 2 = 0 := by omega
      have dx : (gridPoint L (k + 1)).1 - (gridPoint L k).1 = -stepX := by
        simp only [gridPoint, hdiv1, hmod1, if_neg hparn]
        push_cast
        ring
      have dy : (gridPoint L (k + 1)).2 - (gridPoint L k).2 = 0 := by
        simp only [gridPoint, hdiv1, hmod1, if_neg hparn]
        ring
      rw [dx, dy]
      refine ⟨?_, rfl⟩
      rw [abs_neg]
      exact abs_of_pos stepX_pos
  · have hmod1 : (k + 1) % (rowWidth L).toNat = 0 := by
      rw [show k + 1 = (rowWidth L).toNat * (k / (rowWidth L).toNat) + (rowWidth L).toNat from
        by omega, ← Nat.mul_succ, Nat.mul_mod_right]
    have hdiv1 : (k + 1) / (rowWidth L).toNat = k / (rowWidth L).toNat + 1 := by
      rw [show k + 1 = (rowWidth L).toNat * (k / (rowWidth L).toNat) + (rowWidth L).toNat from
        by omega, ← Nat.mul_succ, Nat.mul_div_cancel_left _ hwpos]
    rw [if_pos hmod1]
    have hcast : (((k % (rowWidth L).toNat) : Nat) : ℚ) = ((rowWidth L : ℚ)) - 1 := by
      rw [show k % (rowWidth L).toNat = (rowWidth L).toNat - 1 from by omega]
      rw [Nat.cast_sub (by omega), hWcast]
      norm_num
    rcases Nat.mod_two_eq_zero_or_one (k / (rowWidth L).toNat) with hpar | hpar
    · have hpar1 : ¬ ((k / (rowWidth L).toNat + 1) % 2 = 0) := by omega
      constructor
      · simp only [gridPoint, hdiv1, hmod1, if_pos hpar, if_neg hpar1]
        rw [hcast]
        push_cast
        ring
      · simp only [gridPoint, hdiv1, hmod1, if_pos hpar, if_neg hpar1]
        push_cast
        ring
    · have hparn : ¬ (k / (rowWidth L).toNat) % 2 = 0 := by omega
      have hpar0 : (k / (rowWidth L).toNat + 1) % 2 = 0 := by omega
      constructor
      · simp only [gridPoint, hdiv1, hmod1, if_neg hparn, if_pos hpar0]
        rw [hcast]
        push_cast
        ring
      · simp only [gridPoint, hdiv1, hmod1, if_neg hparn, if_pos hpar0]
        push_cast
        ring

/-- C3: adjacent-dot distance invariant: consecutive grid coordinates in
the same row differ by exactly stepX in x (and 0 in y); across a row
boundary they differ by exactly stepY in y (and 0 in x). The pair crosses
a row boundary exactly when the successor index is a multiple of the row
width. -/
theorem adjacent_dot_distances (L : ℤ) (hL1 : 1 ≤ L) (hL2 : L ≤ 12)
    (k : Nat) (hk : k + 1 < (buildGrid L).length) (p q : ℚ × ℚ)
    (hp : (buildGrid L)[k]? = some p) (hq : (buildGrid L)[k + 1]? = some q) :
    if (k + 1) % (rowWidth L).toNat = 0
    then q.1 - p.1 = 0 ∧ q.2 - p.2 = stepY
    else |q.1 - p.1| = stepX ∧ q.2 - p.2 = 0 := by
  rw [grid_get L k (by omega)] at hp
  rw [grid_get L (k + 1) hk] at hq
  injection hp with hp
  injection hq with hq
  subst hp
  subst hq
  exact consecutive_delta L k hk

unseal Rat.mul Rat.add Rat.sub Rat.inv in
theorem adjacent_dot_distances_witness :
    if (1 + 1) % (rowWidth 1).toNat = 0
    then (((20 : ℚ), (131 : ℚ) / 5) : ℚ × ℚ).1 - (((20 : ℚ), (0 : ℚ)) : ℚ × ℚ).1 = 0 ∧
         (((20 : ℚ), (131 : ℚ) / 5) : ℚ × ℚ).2 - (((20 : ℚ), (0 : ℚ)) : ℚ × ℚ).2 = stepY
    else |(((20 : ℚ), (131 : ℚ) / 5) : ℚ × ℚ).1 - (((20 : ℚ), (0 : ℚ)) : ℚ × ℚ).1| = stepX ∧
         (((20 : ℚ), (131 : ℚ) / 5) : ℚ × ℚ).2 - (((20 : ℚ), (0 : ℚ)) : ℚ × ℚ).2 = 0 :=
  adjacent_dot_distances 1 (by decide) (by decide) 1 (by decide)
    ((20 : ℚ), (0 : ℚ)) ((20 : ℚ), (131 : ℚ) / 5) (by decide) (by decide)

/-- C5: a zero delta between the current dot and the previous position
occurs only at index 0, where the orchestrator emits the comment-only
first-dot line; for every later index the delta is nonzero and a move line
is emitted. The previous position of dot i is grid[i-1] (grid[0] itself for
i = 0, matching the initialization `oldXY = glueCoord[0]`). -/
theorem zero_delta_only_at_first_dot (L : ℤ) (hL1 : 1 ≤ L) (hL2 : L ≤ 12)
    (i : Nat) (hi : i < (buildGrid L).length) (p q : ℚ × ℚ)
    (hp : (buildGrid L)[i - 1]? = some p) (hq : (buildGrid L)[i]? = some q) :
    ((q.1 - p.1, q.2 - p.2) = ((0 : ℚ), (0 : ℚ)) ↔ i = 0) ∧
    (i = 0 → dotEmission p i q = firstComment i) ∧
    (0 < i → dotEmission p i q = moveTo (q.1 - p.1, q.2 - p.2) fastmovement (posComment i)) := by
  rcases Nat.eq_zero_or_pos i with hz | hpos
  · subst hz
    rw [hq] at hp
    injection hp with hp
    subst hp
    refine ⟨⟨fun _ => rfl, fun _ => by simp⟩, fun _ => ?_, fun h0 => absurd h0 (by omega)⟩
    simp only [dotEmission]
    rw [if_neg (not_not_intro ⟨sub_self q.1, sub_self q.2⟩)]
  · have hd := consecutive_delta L (i - 1) (by omega)
    rw [show i - 1 + 1 = i from by omega] at hd
    rw [grid_get L (i - 1) (by omega)] at hp
    rw [grid_get L i hi] at hq
    injection hp with hp
    injection hq with hq
    subst hp
    subst hq
    have hne : ¬ ((gridPoint L i).1 - (gridPoint L (i - 1)).1 = 0 ∧
        (gridPoint L i).2 - (gridPoint L (i - 1)).2 = 0) := by
      by_cases hc : i % (rowWidth L).toNat = 0
      · rw [if_pos hc] at hd
        intro hcontra
        exact stepY_ne_zero (by rw [← hd.2, hcontra.2])
      · rw [if_neg hc] at hd
        intro hcontra
        have h0 : (0 : ℚ) = stepX := by rw [← hd.1, hcontra.1, abs_zero]
        have := stepX_pos
        rw [← h0] at this
        exact lt_irrefl 0 this
    refine ⟨⟨fun hcontra => ?_, fun h0 => absurd h0 (by omega)⟩,
      fun h0 => absurd h0 (by omega), fun _ => ?_⟩
    · exact absurd ⟨congrArg Prod.fst hcontra, congrArg Prod.snd hcontra⟩ hne
    · simp only [dotEmission]
      rw [if_pos hne]

unseal Rat.mul Rat.add Rat.sub Rat.inv in
theorem zero_delta_only_at_first_dot_witness :
    (((((20 : ℚ), (0 : ℚ)) : ℚ × ℚ).1 - ((((0 : ℚ), (0 : ℚ))) : ℚ × ℚ).1,
      ((((20 : ℚ), (0 : ℚ))) : ℚ × ℚ).2 - ((((0 : ℚ), (0 : ℚ))) : ℚ × ℚ).2) =
        ((0 : ℚ), (0 : ℚ)) ↔ (1 : Nat) = 0) ∧
    ((1 : Nat) = 0 →
      dotEmission ((0 : ℚ), (0 : ℚ)) 1 ((20 : ℚ), (0 : ℚ)) = firstComment 1) ∧
    (0 < (1 : Nat) →
      dotEmission ((0 : ℚ), (0 : ℚ)) 1 ((20 : ℚ), (0 : ℚ)) =
        moveTo (((((20 : ℚ), (0 : ℚ))) : ℚ × ℚ).1 - ((((0 : ℚ), (0 : ℚ))) : ℚ × ℚ).1,
          ((((20 : ℚ), (0 : ℚ))) : ℚ × ℚ).2 - ((((0 : ℚ), (0 : ℚ))) : ℚ × ℚ).2)
          fastmovement (posComment 1)) :=
  zero_delta_only_at_first_dot 1 (by decide) (by decide) 1 (by decide)
    ((0 : ℚ), (0 : ℚ)) ((20 : ℚ), (0 : ℚ)) (by decide) (by decide)

lemma digitChar_isDigit (k : Nat) (hk : k < 10) : (Nat.digitChar k).isDigit = true := by
  interval_cases k <;> decide

lemma natCharsAux_digits (fuel : Nat) : ∀ n : Nat, ∀ c ∈ natCharsAux fuel n,
    c.isDigit = true := by
  induction fuel with
  | zero =>
      intro n c hc
      simp only [natCharsAux, List.mem_singleton] at hc
      subst hc
      exact digitChar_isDigit _ (Nat.mod_lt _ (by omega))
  | succ fuel ih =>
      intro n c hc
      simp only [natCharsAux] at hc
      by_cases h : n < 10
      · rw [if_pos h] at hc
        simp only [List.mem_singleton] at hc
        subst hc
        exact digitChar_isDigit _ h
      · rw [if_neg h] at hc
        rcases List.mem_append.mp hc with h1 | h1
        · exact ih _ _ h1
        · simp only [List.mem_singleton] at h1
          subst h1
          exact digitChar_isDigit _ (Nat.mod_lt _ (by omega))

lemma natCharsAux_length_one (fuel n : Nat) (h : n < 10) :
    (natCharsAux fuel n).length = 1 := by
  cases fuel <;> simp [natCharsAux, h]

lemma natCharsAux_length_two (fuel n : Nat) (h1 : 10 ≤ n) (h2 : n < 100) (hf : 1 ≤ fuel) :
    (natCharsAux fuel n).length = 2 := by
  cases fuel with
  | zero => omega
  | succ fuel =>
      simp only [natCharsAux]
      rw [if_neg (by omega)]
      simp [natCharsAux_length_one fuel (n / 10) (by omega)]

lemma natCharsAux_length_three (fuel n : Nat) (h1 : 100 ≤ n) (h2 : n < 1000) (hf : 2 ≤ fuel) :
    (natCharsAux fuel n).length = 3 := by
  cases fuel with
  | zero => omega
  | succ fuel =>
      simp only [natCharsAux]
      rw [if_neg (by omega)]
      simp [natCharsAux_length_two fuel (n / 10) (by omega) (by omega) (by omega)]

lemma pad3_length (n : Nat) (h : n < 1000) : (pad3 n).data.length = 3 := by
  unfold pad3 natStr natChars
  by_cases h1 : n < 10
  · rw [if_pos h1]
    simp [String.data_append, natCharsAux_length_one n n h1]
  · rw [if_neg h1]
    by_cases h2 : n < 100
    · rw [if_pos h2]
      simp [String.data_append, natCharsAux_length_two n n (by omega) h2 (by omega)]
    · rw [if_neg h2]
      simp [natCharsAux_length_three n n (by omega) h (by omega)]

lemma pad3_digits (n : Nat) : ∀ c ∈ (pad3 n).data, c.isDigit = true := by
  have hz2 : ∀ c ∈ ("00" : String).data, c.isDigit = true := by decide
  have hz1 : ∀ c ∈ ("0" : String).data, c.isDigit = true := by decide
  unfold pad3 natStr natChars
  intro c hc
  by_cases h1 : n < 10
  · rw [if_pos h1] at hc
    rw [String.data_append] at hc
    rcases List.mem_append.mp hc with h3 | h3
    · exact hz2 c h3
    · exact natCharsAux_digits n n c h3
  · rw [if_neg h1] at hc
    by_cases h2 : n < 100
    · rw [if_pos h2] at hc
      rw [String.data_append] at hc
      rcases List.mem_append.mp hc with h3 | h3
      · exact hz1 c h3
      · exact natCharsAux_digits n n c h3
    · rw [if_neg h2] at hc
      exact natCharsAux_digits n n c hc

lemma fmt3_decimals (q : ℚ) : ∃ pre fr : List Char,
    (fmt3 q).data = pre ++ '.' :: fr ∧ fr.length = 3 ∧
    (∀ c ∈ fr, c.isDigit = true) ∧ '.' ∉ pre := by
  refine ⟨((if round (q * 1000) < 0 then "-" else "") : String).data ++
      (natStr ((round (q * 1000)).natAbs / 1000)).data,
    (pad3 ((round (q * 1000)).natAbs % 1000)).data, ?_, ?_, ?_, ?_⟩
  · show (fmt3 q).data = _
    unfold fmt3
    rw [String.data_append, String.data_append, String.data_append]
    rw [List.append_assoc]
    rfl
  · exact pad3_length _ (Nat.mod_lt _ (by omega))
  · exact pad3_digits _
  · intro hc
    rcases List.mem_append.mp hc with h1 | h1
    · by_cases hm : round (q * 1000) < 0
      · rw [if_pos hm] at h1
        simp only [List.mem_singleton] at h1
        exact absurd h1 (by decide)
      · rw [if_neg hm] at h1
        exact absurd h1 (by decide)
    · have h2 : '.' ∈ natCharsAux ((round (q * 1000)).natAbs / 1000)
          ((round (q * 1000)).natAbs / 1000) := h1
      have h3 := natCharsAux_digits ((round (q * 1000)).natAbs / 1000)
        ((round (q * 1000)).natAbs / 1000) '.' h2
      rw [show ('.').isDigit = false from by decide] at h3
      exact Bool.false_ne_true h3

/-- C6: the Move Emitter starts the line with the rapid code G00 when fast
and G01 otherwise, prints an X field exactly when dx is nonzero and a Y
field exactly when dy is nonzero, formats each present field with exactly
three digits after the decimal point, and appends the comment verbatim
followed by the line terminator. -/
theorem moveTo_fields_and_formatting (dx dy : ℚ) (fast : Bool) (comment : String) :
    moveTo (dx, dy) fast comment =
      (if fast then "G00" else "G01") ++
      (if dx = 0 then "" else "X" ++ fmt3 dx) ++
      (if dy = 0 then "" else "Y" ++ fmt3 dy) ++ comment ++ "\n" ∧
    (∀ q : ℚ, ∃ pre fr : List Char,
      (fmt3 q).data = pre ++ '.' :: fr ∧ fr.length = 3 ∧
      (∀ c ∈ fr, c.isDigit = true) ∧ '.' ∉ pre) := by
  constructor
  · apply String.ext
    by_cases hx : dx = 0 <;> by_cases hy : dy = 0 <;>
      rcases fast <;> simp [moveTo, hx, hy, String.data_append]
  · exact fmt3_decimals

unseal Rat.mul Rat.add Rat.sub Rat.inv in
/-- C4: the round-trip fails on the code. At ladder length 12 (the value
hard-coded in the notebook) the grid row width is 46, but the comment
encoding divides by the hard-coded width 51: dot 46 (the first dot of row
1, at (900, 26.2)) gets the comment position (46, 0), which re-derives via
the grid formula to (920, 0), not grid[46]. -/
theorem comment_roundtrip_fails_at_dot46 :
    (buildGrid 12)[46]? = some ((45 : ℚ) * stepX, (1 : ℚ) * stepY) ∧
    commentCol 46 = 46 ∧ commentRow 46 = 0 ∧
    rederive (commentCol 46) (commentRow 46) = ((46 : ℚ) * stepX, (0 : ℚ) * stepY) ∧
    rederive (commentCol 46) (commentRow 46) ≠ ((45 : ℚ) * stepX, (1 : ℚ) * stepY) := by
  decide

/-- C7 counterexample: the glue-deposition block with the default pauses
does not consist of 9 lines (it has 10 newline-terminated lines). -/
theorem glueDeposition_not_nine_lines :
    ¬ ((glueDeposition 2 1 1).data.count '\n' = 9) := by decide

/-- C7 amended: the Dispense Emitter with longPause=2, shortPause=1,
glueSettlePause=1 produces a block of exactly 10 newline-terminated lines,
whose third and ninth lines are the two identical long-pause dwell lines
with 3-digit zero-padded duration; the block depends only on the pause
parameters, hence is identical regardless of dot position. -/
theorem glueDeposition_ten_line_block :
    ∃ lines : List String,
      glueDeposition 2 1 1 = String.join lines ∧
      lines.length = 10 ∧
      (∀ l ∈ lines, l.data.count '\n' = 1 ∧ l.data.getLast? = some '\n') ∧
      lines[2]? = some ("G4 P" ++ pad3 2 ++ "\n") ∧
      lines[8]? = some ("G4 P" ++ pad3 2 ++ "\n") := by
  refine ⟨["; ------- Glue deposition -------\n", "M4\n", "G4 P002\n", "M8\n", "G4 P001\n",
    "M9\n", "G4 P001\n", "M3\n", "G4 P002\n", "; ------- End of glue deposition -------\n"],
    ?_, ?_, ?_, ?_, ?_⟩ <;> decide

lemma generateProgram_none_iff (L : ℤ) : generateProgram L = none ↔ rowWidth L ≤ 0 := by
  have hlen := buildGrid_length L
  unfold generateProgram
  rcases hh : (buildGrid L).head? with _ | p0
  · have hnil : buildGrid L = [] := List.head?_eq_none_iff.mp hh
    rw [hnil] at hlen
    simp only [List.length_nil] at hlen
    constructor
    · intro _
      omega
    · intro _
      rfl
  · constructor
    · intro hcontra
      exact absurd hcontra (by simp)
    · intro hw
      exfalso
      have hne : buildGrid L ≠ [] := by
        intro hnil
        rw [hnil] at hh
        exact Option.noConfusion hh
      have h0 : (buildGrid L).length = 0 := by omega
      exact hne (List.length_eq_zero.mp h0)

/-- C8 counterexample: ladder length 13 is outside the supported range
1..12, yet generation does not fail: a complete program is produced. -/
theorem generateProgram_succeeds_beyond_range : generateProgram 13 ≠ none := by
  intro h
  have h2 := (generateProgram_none_iff 13).mp h
  unfold rowWidth at h2
  omega

/-- C8 amended: the notebook has no InvalidParameter validation. Generation
fails exactly when the computed row width is nonpositive (equivalently,
ladder length at most 0): then the grid is empty and the run aborts on the
`glueCoord[0]` index access before the output file is even opened, so no
partial text is produced; any ladder length with positive row width
(including out-of-range ones such as 13) generates a complete program. -/
theorem generation_fails_iff_nonpositive_rowWidth (L : ℤ) :
    (generateProgram L = none ↔ rowWidth L ≤ 0) ∧ (rowWidth L ≤ 0 ↔ L ≤ 0) :=
  ⟨generateProgram_none_iff L, by unfold rowWidth; omega⟩

/-- C9 counterexample: at the maximum ladder length 12 the row width is not
50 and the grid does not have 200 coordinates. -/
theorem scenarioA_counts_differ :
    ¬ (rowWidth 12 = 50 ∧ (buildGrid 12).length = 200) := by decide

unseal Rat.mul Rat.add Rat.sub Rat.inv in
/-- C9 amended: at ladder length 12 the formula gives rowWidth = 46, the
grid has 184 coordinates, the first coordinate is (0, 0), and the last
coordinate of row 0 (index 45) is ((rowWidth - 1) * stepX, 0) = (900, 0). -/
theorem scenarioA_actual_values :
    rowWidth 12 = 46 ∧ (buildGrid 12).length = 184 ∧
    (buildGrid 12)[0]? = some ((0 : ℚ), (0 : ℚ)) ∧
    (buildGrid 12)[45]? = some (((46 : ℚ) - 1) * stepX, (0 : ℚ)) := by
  refine ⟨by decide, by decide, by decide, by decide⟩

unseal Rat.mul Rat.add Rat.sub Rat.inv in
/-- C10: the Initializer's single positioning move always prints both the
X and the Y field, each with three decimals, even when a component is zero:
the default offset (0, 237) yields the line G00X0.000Y237.000. The Move
Emitter, by contrast, omits zero-valued axis fields. -/
theorem emitInit_always_emits_both_axis_fields (zg : ℚ × ℚ) (fr : ℤ) (fast : Bool) :
    (∃ pre : String, emitInit zg fr fast =
        pre ++ (if fast then "G00" else "G01") ++ "X" ++ fmt3 zg.1 ++ "Y" ++ fmt3 zg.2 ++
          "\n" ++ "; End of program initialization\n") ∧
    emitInit ((0 : ℚ), (237 : ℚ)) 1000 true =
      "; Program initialization\n$100=159.949; X axis steps/mm\n$101=160.241; Y axis steps/mm\n$130=990; X axis maximum travel\n$X; GRBL unlock\nM3\nF1000\n$H; GRBL homing\nG91\nG00X0.000Y237.000\n; End of program initialization\n" ∧
    moveTo ((0 : ℚ), (237 : ℚ)) true "" = "G00" ++ "Y" ++ fmt3 237 ++ "\n" := by
  refine ⟨⟨"; Program initialization\n" ++ "$100=159.949; X axis steps/mm\n" ++
      "$101=160.241; Y axis steps/mm\n" ++ "$130=990; X axis maximum travel\n" ++
      "$X; GRBL unlock\n" ++ "M3\n" ++ "F" ++ toString fr ++ "\n" ++ "$H; GRBL homing\n" ++
      "G91\n", ?_⟩, ?_, ?_⟩
  · apply String.ext
    simp [emitInit, String.data_append]
  · decide
  · apply String.ext
    simp [moveTo, String.data_append, show (237 : ℚ) ≠ 0 from by norm_num]
